import Mathlib

/-!
Shallow embedding of the blnk reconciliation store
(`src/database/reconciliation.go`, package `database`).

The store is a PostgreSQL-backed `Datasource`; we embed the logical database
state as lists of rows (one list per table, in insertion order) and each Go
method as a pure function from the state to an `Except APIError` result, with
explicit state passing.  Wall-clock time (`time.Now()`) is passed as an
explicit `now : Nat` argument.  Timestamps are modelled as `Nat`, monetary
amounts as `Int` (no claim performs amount arithmetic, so the float64/decimal
representation is irrelevant here), and `sql.NullTime` as `Option Nat`.

The SQL schema itself is not under `src/`; where a definition depends on a
schema constraint (the UNIQUE constraints of spec section 6) the constraint is
modelled from the spec and noted in the definition's doc comment.  A store
error observed by the Go code (e.g. a uniqueness violation rejected by the
database) is modelled by the row-level insert function returning `none`; the
Go method then wraps it exactly as the source does.
-/

namespace BlnkDB

/-- Error kinds of the `apierror` package (not under `src/`; the kinds are the
taxonomy of spec section 7, and the source constructs errors with
`apierror.ErrInternalServer` / `apierror.ErrNotFound`). -/
inductive ErrorKind where
  | NotFound
  | AlreadyExists
  | InvalidInput
  | Conflict
  | InternalServer
deriving DecidableEq, Repr

/-- An `apierror.APIError`: an error kind plus a short message (the wrapped
underlying cause is dropped; no claim depends on it). -/
structure APIError where
  kind : ErrorKind
  message : String
deriving DecidableEq, Repr

/-- A row of `blnk.reconciliations` / `model.Reconciliation`.  `ID` is the
serial surrogate key assigned by the database at insert. -/
structure Reconciliation where
  ID : Nat
  ReconciliationID : String
  UploadID : String
  Status : String
  MatchedTransactions : Int
  UnmatchedTransactions : Int
  StartedAt : Nat
  CompletedAt : Option Nat
deriving DecidableEq, Repr

/-- A row of `blnk.matches` / `model.Match`. -/
structure Match where
  ExternalTransactionID : String
  InternalTransactionID : String
  ReconciliationID : String
  Amount : Int
  Date : Nat
deriving DecidableEq, Repr

/-- `model.ExternalTransaction` as read and written by the store: the seven
columns the queries select. -/
structure ExternalTransaction where
  ID : String
  Amount : Int
  Reference : String
  Currency : String
  Description : String
  Date : Nat
  Source : String
deriving DecidableEq, Repr

/-- A row of `blnk.external_transactions`.  Besides the seven transaction
columns it has `upload_id` (written by `RecordExternalTransaction`) and a
`reconciliation_id` column: `GetMatchesByReconciliationID` joins on
`et.reconciliation_id`, but no writer in the source ever sets it, so a row
inserted through the store always has it NULL (`none`). -/
structure ExternalTransactionRow where
  tx : ExternalTransaction
  upload_id : String
  reconciliation_id : Option String
deriving DecidableEq, Repr

/-- Modelled from the spec: `model.Criterion` is not under `src/`.  Spec
sections 3 and 4.2: a criterion carries a field name, an operator name and a
value.  The store never inspects criteria (it only (un)marshals the list), so
the payload types are opaque strings here. -/
structure Criterion where
  Field : String
  Operator : String
  Value : String
deriving DecidableEq, Repr

/-- A row of `blnk.matching_rules` / `model.MatchingRule`.  `ID` is the serial
surrogate key; `Criteria` stands for the JSON `criteria` column
(`json.Marshal`/`json.Unmarshal` of a criteria list are mutually inverse, so
the column is modelled by the list itself). -/
structure MatchingRule where
  ID : Nat
  RuleID : String
  CreatedAt : Nat
  UpdatedAt : Nat
  Name : String
  Description : String
  Criteria : List Criterion
deriving DecidableEq, Repr

/-- A JSON scalar, enough to express the progress document of spec section 6
(string and integer fields). -/
inductive Jval where
  | jstr (s : String)
  | jnum (n : Int)
deriving DecidableEq, Repr

/-- A JSON object as an ordered list of key/value pairs; this is what the
`progress` column of `blnk.reconciliation_progress` stores. -/
abbrev Jdoc := List (String × Jval)

/-- Modelled from the spec: `model.ReconciliationProgress` is not under
`src/`.  Spec sections 3 and 6: the progress document has at minimum
`last_processed_external_id`, `processed_count`, `matched_count`,
`unmatched_count` and `page_offset`, and unknown fields are preserved verbatim
on round-trip; `Extra` holds those unknown fields. -/
structure ReconciliationProgress where
  LastProcessedExternalID : String
  ProcessedCount : Int
  MatchedCount : Int
  UnmatchedCount : Int
  PageOffset : Int
  Extra : Jdoc
deriving DecidableEq, Repr

/-- The five field names of the minimum progress schema (spec section 6). -/
def progressKnownKeys : List String :=
  ["last_processed_external_id", "processed_count", "matched_count",
   "unmatched_count", "page_offset"]

/-- `json.Marshal` of a progress document: the five schema fields followed by
the unknown fields carried in `Extra`. -/
def marshalProgress (p : ReconciliationProgress) : Jdoc :=
  [("last_processed_external_id", Jval.jstr p.LastProcessedExternalID),
   ("processed_count", Jval.jnum p.ProcessedCount),
   ("matched_count", Jval.jnum p.MatchedCount),
   ("unmatched_count", Jval.jnum p.UnmatchedCount),
   ("page_offset", Jval.jnum p.PageOffset)] ++ p.Extra

/-- First value bound to key `k` in a JSON object (JSON object field lookup). -/
def jlookup (k : String) : Jdoc → Option Jval
  | [] => none
  | kv :: rest => if kv.1 = k then some kv.2 else jlookup k rest

/-- Read a string field, defaulting like Go's zero value. -/
def jlookupStr (d : Jdoc) (k : String) : String :=
  match jlookup k d with
  | some (Jval.jstr s) => s
  | _ => ""

/-- Read an integer field, defaulting like Go's zero value. -/
def jlookupInt (d : Jdoc) (k : String) : Int :=
  match jlookup k d with
  | some (Jval.jnum n) => n
  | _ => 0

/-- `json.Unmarshal` of a progress document: read the five schema fields and
keep every other field verbatim in `Extra`. -/
def unmarshalProgress (d : Jdoc) : ReconciliationProgress :=
  { LastProcessedExternalID := jlookupStr d "last_processed_external_id"
    ProcessedCount := jlookupInt d "processed_count"
    MatchedCount := jlookupInt d "matched_count"
    UnmatchedCount := jlookupInt d "unmatched_count"
    PageOffset := jlookupInt d "page_offset"
    Extra := d.filter (fun kv => decide (¬ kv.1 ∈ progressKnownKeys)) }

/-- The logical database state: one list of rows per table, in insertion
order. -/
structure DB where
  reconciliations : List Reconciliation
  «matches» : List Match
  external_transactions : List ExternalTransactionRow
  matching_rules : List MatchingRule
  reconciliation_progress : List (String × Jdoc)
deriving DecidableEq, Repr

/-- The empty database. -/
def DB.empty : DB := ⟨[], [], [], [], []⟩

/-- Row-level insert into `blnk.reconciliations`.  The spec (section 6)
requires `reconciliations.reconciliation_id` UNIQUE; the schema is not under
`src/`, so the constraint is modelled from the spec: the insert is rejected
(`none`) when the key is already present. -/
def insertReconciliationRow (l : List Reconciliation) (rec : Reconciliation) :
    Option (List Reconciliation) :=
  if l.any (fun r => decide (r.ReconciliationID = rec.ReconciliationID)) then none
  else some (l ++ [{ rec with ID := l.length }])

/-- `Datasource.RecordReconciliation` (src/database/reconciliation.go:16-34):
a single INSERT; any store error is wrapped as `ErrInternalServer` with the
message "Failed to record reconciliation" — there is no branch producing
`AlreadyExists`. -/
def RecordReconciliation (db : DB) (rec : Reconciliation) : Except APIError DB :=
  match insertReconciliationRow db.reconciliations rec with
  | none => .error ⟨.InternalServer, "Failed to record reconciliation"⟩
  | some l => .ok { db with reconciliations := l }

/-- `Datasource.UpdateReconciliationStatus`
(src/database/reconciliation.go:62-88).  The Go code builds
`completedAt := sql.NullTime{Time: time.Now(), Valid: status == "completed"}`
and then runs an UPDATE that unconditionally writes `completed_at = $5`; when
`Valid` is false the driver sends NULL.  On zero rows affected it returns
`NotFound`. -/
def UpdateReconciliationStatus (db : DB) (now : Nat) (id status : String)
    (matchedCount unmatchedCount : Int) : Except APIError DB :=
  let completedAt : Option Nat := if status = "completed" then some now else none
  let updated := db.reconciliations.map (fun r =>
    if r.ReconciliationID = id then
      { r with Status := status, MatchedTransactions := matchedCount,
               UnmatchedTransactions := unmatchedCount, CompletedAt := completedAt }
    else r)
  let rowsAffected :=
    (db.reconciliations.filter (fun r => decide (r.ReconciliationID = id))).length
  if rowsAffected = 0 then
    .error ⟨.NotFound, "Reconciliation with ID " ++ id ++ " not found"⟩
  else .ok { db with reconciliations := updated }

/-- One step per row of the `pq.CopyIn` bulk path of `RecordMatches`: COPY
appends each row in order and the whole statement fails on the first
uniqueness violation.  The spec (section 6) requires
`matches(reconciliation_id, external_transaction_id)` UNIQUE; the schema is
not under `src/`, so the constraint is modelled from the spec. -/
def copyMatches (table : List Match) : List Match → Option (List Match)
  | [] => some table
  | r :: rest =>
    if table.any (fun x => decide (x.ReconciliationID = r.ReconciliationID ∧
        x.ExternalTransactionID = r.ExternalTransactionID)) then none
    else copyMatches (table ++ [r]) rest

/-- `Datasource.RecordMatches` (src/database/reconciliation.go:129-172): one
transaction around a `pq.CopyIn("blnk.matches", ...)`; every row is written
with the `reconciliation_id` parameter (not the match's own field).  pq
buffers the rows, so a constraint violation surfaces at the final flush and
is wrapped as `ErrInternalServer`; the deferred rollback leaves the table
unchanged on error. -/
def RecordMatches (db : DB) (reconciliationID : String) (ms : List Match) :
    Except APIError DB :=
  let rows := ms.map (fun m => { m with ReconciliationID := reconciliationID })
  match copyMatches db.«matches» rows with
  | none => .error ⟨.InternalServer, "Failed to flush batch insert"⟩
  | some t => .ok { db with «matches» := t }

/-- `Datasource.RecordMatch` (src/database/reconciliation.go:174-190): a
single INSERT of the match's own five fields; any store error (including a
violation of the spec-modelled uniqueness constraint on
`(reconciliation_id, external_transaction_id)`) is wrapped as
`ErrInternalServer`. -/
def RecordMatch (db : DB) (m : Match) : Except APIError DB :=
  if db.«matches».any (fun x => decide (x.ReconciliationID = m.ReconciliationID ∧
      x.ExternalTransactionID = m.ExternalTransactionID)) then
    .error ⟨.InternalServer, "Failed to record match"⟩
  else .ok { db with «matches» := db.«matches» ++ [m] }

/-- `Datasource.GetMatchesByReconciliationID`
(src/database/reconciliation.go:192-227): an inner JOIN of `blnk.matches m`
with `blnk.external_transactions et` on `m.external_transaction_id = et.id`,
filtered by `et.reconciliation_id = $1`.  The scan fills only the four
selected columns, so the returned `Match` has its `ReconciliationID` at the
Go zero value `""`. -/
def GetMatchesByReconciliationID (db : DB) (reconciliationID : String) :
    List Match :=
  db.«matches».flatMap (fun m =>
    (db.external_transactions.filter (fun et =>
        decide (m.ExternalTransactionID = et.tx.ID ∧
                et.reconciliation_id = some reconciliationID))).map
      (fun _ => { ExternalTransactionID := m.ExternalTransactionID,
                  InternalTransactionID := m.InternalTransactionID,
                  ReconciliationID := "",
                  Amount := m.Amount, Date := m.Date }))

/-- `Datasource.RecordExternalTransaction`
(src/database/reconciliation.go:229-245): a single INSERT of the seven
transaction columns plus `upload_id`; the `reconciliation_id` column is not in
the column list, so the new row has it NULL.  The spec (section 6) requires
`external_transactions.id` UNIQUE (schema not under `src/`, modelled from the
spec); any store error is wrapped as `ErrInternalServer`. -/
def RecordExternalTransaction (db : DB) (tx : ExternalTransaction)
    (uploadID : String) : Except APIError DB :=
  if db.external_transactions.any (fun et => decide (et.tx.ID = tx.ID)) then
    .error ⟨.InternalServer, "Failed to record external transaction"⟩
  else .ok { db with external_transactions :=
    db.external_transactions ++ [⟨tx, uploadID, none⟩] }

/-- `Datasource.RecordMatchingRule` (src/database/reconciliation.go:283-304):
marshals `rule.Criteria` (which cannot fail for a criteria list) and runs a
single INSERT of `rule_id, created_at, updated_at, name, description,
criteria` — no inspection or validation of the criteria happens anywhere in
the function.  The spec (section 6) requires `matching_rules.rule_id` UNIQUE
(schema not under `src/`, modelled from the spec); any store error is wrapped
as `ErrInternalServer`. -/
def RecordMatchingRule (db : DB) (rule : MatchingRule) : Except APIError DB :=
  if db.matching_rules.any (fun r => decide (r.RuleID = rule.RuleID)) then
    .error ⟨.InternalServer, "Failed to record matching rule"⟩
  else .ok { db with matching_rules :=
    db.matching_rules ++ [{ rule with ID := db.matching_rules.length }] }

/-- `Datasource.UpdateMatchingRule` (src/database/reconciliation.go:347-376):
`UPDATE blnk.matching_rules SET name = $2, description = $3, criteria = $4
WHERE rule_id = $1` — only those three columns appear in the SET list.  On
zero rows affected it returns `NotFound`. -/
def UpdateMatchingRule (db : DB) (rule : MatchingRule) : Except APIError DB :=
  let updated := db.matching_rules.map (fun r =>
    if r.RuleID = rule.RuleID then
      { r with Name := rule.Name, Description := rule.Description,
               Criteria := rule.Criteria }
    else r)
  let rowsAffected :=
    (db.matching_rules.filter (fun r => decide (r.RuleID = rule.RuleID))).length
  if rowsAffected = 0 then
    .error ⟨.NotFound, "Matching rule with ID " ++ rule.RuleID ++ " not found"⟩
  else .ok { db with matching_rules := updated }

/-- Insert a row before the first element with a strictly smaller date,
keeping the relative order of equal dates: one admissible execution of
`ORDER BY date DESC` (PostgreSQL leaves the order of date ties unspecified;
we fix the stable, insertion-order choice). -/
def orderedInsertByDateDesc (r : ExternalTransactionRow) :
    List ExternalTransactionRow → List ExternalTransactionRow
  | [] => [r]
  | x :: xs =>
    if x.tx.Date ≤ r.tx.Date then r :: x :: xs
    else x :: orderedInsertByDateDesc r xs

/-- Stable sort by `date` descending (see `orderedInsertByDateDesc`). -/
def sortByDateDesc : List ExternalTransactionRow → List ExternalTransactionRow
  | [] => []
  | x :: xs => orderedInsertByDateDesc x (sortByDateDesc xs)

/-- `Datasource.GetExternalTransactionsPaginated`
(src/database/reconciliation.go:434-470): `SELECT ... WHERE upload_id = $1
ORDER BY date DESC LIMIT $2 OFFSET $3` — the ORDER BY names only `date`, no
secondary key.  LIMIT and OFFSET are modelled as `Nat` (the Go arguments are
machine integers; negative values would make the SQL statement itself fail). -/
def GetExternalTransactionsPaginated (db : DB) (uploadID : String)
    (batchSize offset : Nat) : List ExternalTransaction :=
  (((sortByDateDesc (db.external_transactions.filter
      (fun et => decide (et.upload_id = uploadID)))).drop offset).take
    batchSize).map (fun et => et.tx)

/-- The `ON CONFLICT (reconciliation_id) DO UPDATE SET progress = $2` upsert of
`SaveReconciliationProgress`: replace the row if the key exists, else append. -/
def upsertProgressRow (l : List (String × Jdoc)) (rid : String) (j : Jdoc) :
    List (String × Jdoc) :=
  if l.any (fun kv => decide (kv.1 = rid)) then
    l.map (fun kv => if kv.1 = rid then (rid, j) else kv)
  else l ++ [(rid, j)]

/-- `Datasource.SaveReconciliationProgress`
(src/database/reconciliation.go:472-493): marshal the progress document
(cannot fail for a progress value) and upsert it keyed by
`reconciliation_id`. -/
def SaveReconciliationProgress (db : DB) (reconciliationID : String)
    (progress : ReconciliationProgress) : DB :=
  let progressJSON := marshalProgress progress
  { db with reconciliation_progress :=
      upsertProgressRow db.reconciliation_progress reconciliationID progressJSON }

/-- The empty sentinel `model.ReconciliationProgress{}` (Go zero value). -/
def emptyProgress : ReconciliationProgress := ⟨"", 0, 0, 0, 0, []⟩

/-- The point read `SELECT progress FROM blnk.reconciliation_progress WHERE
reconciliation_id = $1` (the key is the primary key, so the first hit is the
row). -/
def lookupProgressRow (rid : String) : List (String × Jdoc) → Option Jdoc
  | [] => none
  | kv :: rest => if kv.1 = rid then some kv.2 else lookupProgressRow rid rest

/-- `Datasource.LoadReconciliationProgress`
(src/database/reconciliation.go:495-520): point read of the `progress`
column; on `sql.ErrNoRows` it returns the empty progress value with a nil
error ("Return empty progress if not found"), otherwise it unmarshals the
stored document. -/
def LoadReconciliationProgress (db : DB) (reconciliationID : String) :
    Except APIError ReconciliationProgress :=
  match lookupProgressRow reconciliationID db.reconciliation_progress with
  | none => .ok emptyProgress
  | some progressJSON => .ok (unmarshalProgress progressJSON)

/-! Helper lemmas about the embedded operations. -/

theorem mem_orderedInsertByDateDesc (r y : ExternalTransactionRow)
    (l : List ExternalTransactionRow) :
    y ∈ orderedInsertByDateDesc r l ↔ y = r ∨ y ∈ l := by
  induction l with
  | nil => simp [orderedInsertByDateDesc]
  | cons x xs ih =>
    simp only [orderedInsertByDateDesc]
    split
    · simp [List.mem_cons]
    · simp only [List.mem_cons, ih]
      tauto

theorem pairwise_orderedInsertByDateDesc (r : ExternalTransactionRow)
    (l : List ExternalTransactionRow)
    (h : l.Pairwise (fun p q => q.tx.Date ≤ p.tx.Date)) :
    (orderedInsertByDateDesc r l).Pairwise (fun p q => q.tx.Date ≤ p.tx.Date) := by
  induction l with
  | nil => simp [orderedInsertByDateDesc]
  | cons x xs ih =>
    rw [orderedInsertByDateDesc]
    rcases List.pairwise_cons.mp h with ⟨hx, hxs⟩
    split
    case isTrue hle =>
      refine List.pairwise_cons.mpr ⟨?_, h⟩
      intro y hy
      rcases List.mem_cons.mp hy with rfl | hy'
      · exact hle
      · exact le_trans (hx y hy') hle
    case isFalse hgt =>
      refine List.pairwise_cons.mpr ⟨?_, ih hxs⟩
      intro y hy
      rcases (mem_orderedInsertByDateDesc r y xs).mp hy with rfl | hy'
      · exact le_of_lt (lt_of_not_le hgt)
      · exact hx y hy'

theorem pairwise_sortByDateDesc (l : List ExternalTransactionRow) :
    (sortByDateDesc l).Pairwise (fun p q => q.tx.Date ≤ p.tx.Date) := by
  induction l with
  | nil => simp [sortByDateDesc]
  | cons x xs ih => exact pairwise_orderedInsertByDateDesc x _ ih

theorem mem_sortByDateDesc (y : ExternalTransactionRow)
    (l : List ExternalTransactionRow) :
    y ∈ sortByDateDesc l ↔ y ∈ l := by
  induction l with
  | nil => simp [sortByDateDesc]
  | cons x xs ih =>
    simp [sortByDateDesc, mem_orderedInsertByDateDesc, List.mem_cons, ih]

theorem lookup_map_replace (l : List (String × Jdoc)) (rid : String) (j : Jdoc)
    (h : l.any (fun kv => decide (kv.1 = rid)) = true) :
    lookupProgressRow rid (l.map (fun kv => if kv.1 = rid then (rid, j) else kv)) =
      some j := by
  induction l with
  | nil => simp at h
  | cons kv t ih =>
    by_cases hk : kv.1 = rid
    · simp [lookupProgressRow, hk]
    · have ht : t.any (fun kv => decide (kv.1 = rid)) = true := by
        simpa [List.any_cons, hk] using h
      simp [lookupProgressRow, hk, ih ht]

theorem lookup_append_fresh (l : List (String × Jdoc)) (rid : String) (j : Jdoc)
    (h : l.any (fun kv => decide (kv.1 = rid)) = false) :
    lookupProgressRow rid (l ++ [(rid, j)]) = some j := by
  induction l with
  | nil => simp [lookupProgressRow]
  | cons kv t ih =>
    have h' : ¬ kv.1 = rid ∧ ∀ (a : String) (b : Jdoc), (a, b) ∈ t → ¬ a = rid := by
      simpa [List.any_cons] using h
    have ht : t.any (fun kv => decide (kv.1 = rid)) = false := by
      simp only [List.any_eq_false, decide_eq_true_eq]
      intro kv' hkv'
      exact h'.2 kv'.1 kv'.2 hkv'
    simp [lookupProgressRow, h'.1, ih ht]

theorem lookup_upsertProgressRow (l : List (String × Jdoc)) (rid : String)
    (j : Jdoc) :
    lookupProgressRow rid (upsertProgressRow l rid j) = some j := by
  rw [upsertProgressRow]
  split
  case isTrue h => exact lookup_map_replace l rid j h
  case isFalse h => exact lookup_append_fresh l rid j (Bool.eq_false_iff.mpr h)

theorem copyMatches_eq_append :
    ∀ (rows table t : List Match), copyMatches table rows = some t →
      t = table ++ rows := by
  intro rows
  induction rows with
  | nil =>
    intro table t h
    simp [copyMatches] at h
    simp [h.symm]
  | cons r rest ih =>
    intro table t h
    rw [copyMatches] at h
    split at h
    · exact absurd h (by simp)
    · have := ih (table ++ [r]) t h
      simpa [List.append_assoc] using this

theorem forall2_self_map {α : Type _} (P : α → α → Prop) (f : α → α)
    (h : ∀ a, P a (f a)) : ∀ l : List α, List.Forall₂ P l (l.map f)
  | [] => List.Forall₂.nil
  | a :: t => List.Forall₂.cons (h a) (forall2_self_map P f h t)

theorem copyMatches_head_dup (table : List Match) (r : Match) (rest : List Match)
    (h : ∃ x ∈ table, x.ReconciliationID = r.ReconciliationID ∧
         x.ExternalTransactionID = r.ExternalTransactionID) :
    copyMatches table (r :: rest) = none := by
  rw [copyMatches]
  obtain ⟨x, hx, h1, h2⟩ := h
  have hany : table.any (fun x => decide (x.ReconciliationID = r.ReconciliationID ∧
      x.ExternalTransactionID = r.ExternalTransactionID)) = true :=
    List.any_eq_true.mpr ⟨x, hx, by simp [h1, h2]⟩
  rw [if_pos hany]

theorem unmarshalProgress_marshalProgress (p : ReconciliationProgress)
    (h : ∀ kv ∈ p.Extra, ¬ kv.1 ∈ progressKnownKeys) :
    unmarshalProgress (marshalProgress p) = p := by
  obtain ⟨a, b, c, d, e, ex⟩ := p
  simp [unmarshalProgress, marshalProgress, jlookupStr, jlookupInt, jlookup,
    progressKnownKeys]
  intro a' b' hmem
  have := h (a', b') hmem
  simpa [progressKnownKeys] using this

/-! Claim C1. -/

def extTxC1 : ExternalTransaction := ⟨"e1", 100, "ref-1", "USD", "wire", 1, "bank"⟩

def matchC1 : Match := ⟨"e1", "i1", "r1", 100, 1⟩

def dbC1a : DB := ⟨[], [], [⟨extTxC1, "u1", none⟩], [], []⟩

def dbC1b : DB := ⟨[], [matchC1], [⟨extTxC1, "u1", none⟩], [], []⟩

/-- C1: `get_matches_by_reconciliation` does NOT return the matches recorded
for a run.  Evaluation at the failing input: starting from the empty store,
`record_external_transaction` stores external transaction `e1` for upload
`u1` (leaving `external_transactions.reconciliation_id` NULL, since the INSERT
never writes that column), `record_match` records a match for reconciliation
`r1` on `e1`, and `get_matches_by_reconciliation("r1")` then returns the empty
list even though the matches table holds exactly that match — the JOIN filter
`et.reconciliation_id = $1` never fires.  This is the latent bug the spec
itself flags. -/
theorem getMatchesByReconciliationID_misses_recorded_match :
    RecordExternalTransaction DB.empty extTxC1 "u1" = Except.ok dbC1a ∧
    RecordMatch dbC1a matchC1 = Except.ok dbC1b ∧
    dbC1b.«matches» = [matchC1] ∧
    GetMatchesByReconciliationID dbC1b "r1" = [] :=
  ⟨rfl, rfl, rfl, rfl⟩

/-! Claim C2. -/

def recC2 : Reconciliation := ⟨0, "r1", "u1", "completed", 3, 4, 1, some 5⟩

def dbC2 : DB := ⟨[recC2], [], [], [], []⟩

/-- C2 counterexample: the stored `completed_at` is NOT left unchanged for a
status other than "completed" — the UPDATE unconditionally writes the
`sql.NullTime`, which is NULL when the status is not "completed".  Here the
stored row has `completed_at = some 5`; after updating to status "failed" the
stored value is `none`. -/
theorem updateReconciliationStatus_overwrites_completed_at :
    recC2.CompletedAt = some 5 ∧
    UpdateReconciliationStatus dbC2 99 "r1" "failed" 3 4 =
      Except.ok ⟨[⟨0, "r1", "u1", "failed", 3, 4, 1, none⟩], [], [], [], []⟩ ∧
    (some 5 : Option Nat) ≠ none :=
  ⟨rfl, rfl, by decide⟩

/-- C2 (amended): a successful `update_reconciliation_status(id, status,
matched, unmatched)` sets `completed_at` to the current time when
`status == "completed"` and overwrites it with NULL for every other status
(the previously stored value is not preserved). -/
theorem updateReconciliationStatus_completed_at (db : DB) (now : Nat)
    (id status : String) (m u : Int) (db' : DB)
    (h : UpdateReconciliationStatus db now id status m u = Except.ok db') :
    db'.reconciliations.Forall (fun r => r.ReconciliationID = id →
      r.CompletedAt = if status = "completed" then some now else none) := by
  simp only [UpdateReconciliationStatus] at h
  split at h
  · exact absurd h (by simp)
  · have hdb : { db with reconciliations := db.reconciliations.map (fun r =>
        if r.ReconciliationID = id then
          { r with Status := status, MatchedTransactions := m,
                   UnmatchedTransactions := u,
                   CompletedAt := if status = "completed" then some now else none }
        else r) } = db' := by
      injection h
    subst hdb
    refine List.forall_iff_forall_mem.mpr ?_
    intro r hr
    obtain ⟨r0, hr0, rfl⟩ := List.mem_map.mp hr
    by_cases h0 : r0.ReconciliationID = id
    · simp [h0]
    · simp only [if_neg h0]
      intro hc
      exact absurd hc h0

/-- C2 witness: the amended theorem applied at a store holding one
reconciliation row. -/
theorem updateReconciliationStatus_completed_at_witness :
    (⟨[⟨0, "r1", "u1", "failed", 3, 4, 1, none⟩], [], [], [], []⟩ : DB).reconciliations.Forall
      (fun r => r.ReconciliationID = "r1" →
        r.CompletedAt = if "failed" = "completed" then some 99 else none) :=
  updateReconciliationStatus_completed_at dbC2 99 "r1" "failed" 3 4 _ rfl

/-! Claim C3. -/

def recC3 : Reconciliation := ⟨0, "r1", "u1", "pending", 0, 0, 1, none⟩

def recC3b : Reconciliation := ⟨0, "r1", "u2", "pending", 0, 0, 2, none⟩

def dbC3 : DB := ⟨[recC3], [], [], [], []⟩

/-- C3 counterexample: inserting a reconciliation whose `reconciliation_id`
already exists fails with kind `InternalServer`, not `AlreadyExists` — the
source wraps every store error of the INSERT as `ErrInternalServer`. -/
theorem recordReconciliation_duplicate_not_already_exists :
    recC3b.ReconciliationID = recC3.ReconciliationID ∧
    recC3 ∈ dbC3.reconciliations ∧
    RecordReconciliation dbC3 recC3b =
      Except.error ⟨ErrorKind.InternalServer, "Failed to record reconciliation"⟩ ∧
    ErrorKind.InternalServer ≠ ErrorKind.AlreadyExists :=
  ⟨rfl, by decide, rfl, by decide⟩

/-- C3 (amended): `record_reconciliation(rec)` fails with the `Internal` error
kind whenever a reconciliation with the same `reconciliation_id` already
exists in the store (as it does on every other store error): the function has
no `AlreadyExists` branch. -/
theorem recordReconciliation_duplicate_internal (db : DB) (rec : Reconciliation)
    (h : db.reconciliations.any
      (fun r => decide (r.ReconciliationID = rec.ReconciliationID)) = true) :
    RecordReconciliation db rec =
      Except.error ⟨ErrorKind.InternalServer, "Failed to record reconciliation"⟩ := by
  simp [RecordReconciliation, insertReconciliationRow, h]

/-- C3 witness: the amended theorem applied at a store already holding the
reconciliation id. -/
theorem recordReconciliation_duplicate_internal_witness :
    RecordReconciliation dbC3 recC3b =
      Except.error ⟨ErrorKind.InternalServer, "Failed to record reconciliation"⟩ :=
  recordReconciliation_duplicate_internal dbC3 recC3b (by decide)

/-! Claim C4. -/

/-- The ordering the claim asserts: `date` descending with date ties broken by
`id` ascending (`id` is a string; ascending means the lexicographic character
order, compared here on the underlying character lists). -/
def orderedByDateDescIdAsc (l : List ExternalTransaction) : Prop :=
  l.Pairwise (fun a b => b.Date < a.Date ∨ (a.Date = b.Date ∧ a.ID.data < b.ID.data))

def extRowB : ExternalTransactionRow := ⟨⟨"b", 7, "", "USD", "", 10, "s"⟩, "u1", none⟩

def extRowA : ExternalTransactionRow := ⟨⟨"a", 8, "", "USD", "", 10, "s"⟩, "u1", none⟩

def dbC4 : DB := ⟨[], [], [extRowB, extRowA], [], []⟩

/-- C4 counterexample: the query orders by `date DESC` only — there is no
secondary `id ASC` key in the SQL, so two rows with equal dates come back in
an order that is not id-ascending (here: insertion order "b" before "a",
one admissible execution of the unconstrained ORDER BY). -/
theorem getExternalTransactionsPaginated_ties_not_id_ordered :
    GetExternalTransactionsPaginated dbC4 "u1" 10 0 = [extRowB.tx, extRowA.tx] ∧
    extRowB.tx.Date = extRowA.tx.Date ∧
    ¬ orderedByDateDescIdAsc (GetExternalTransactionsPaginated dbC4 "u1" 10 0) := by
  refine ⟨rfl, rfl, ?_⟩
  intro hord
  rw [orderedByDateDescIdAsc,
    (rfl : GetExternalTransactionsPaginated dbC4 "u1" 10 0 = [extRowB.tx, extRowA.tx])]
      at hord
  have hR := (List.pairwise_cons.mp hord).1 extRowA.tx (List.mem_cons_self _ _)
  rcases hR with hlt | ⟨_, hid⟩
  · exact absurd hlt (by decide)
  · exact absurd hid (by decide)

/-- C4 (amended): `get_external_transactions_paginated(upload_id, batch_size,
offset)` returns at most `batch_size` external transactions of that upload
starting at `offset`, ordered by `date` descending; the query imposes NO
secondary ordering, so transactions with equal dates are not guaranteed to be
ordered by id ascending. -/
theorem getExternalTransactionsPaginated_spec (db : DB) (uploadID : String)
    (batchSize offset : Nat) :
    (GetExternalTransactionsPaginated db uploadID batchSize offset).length ≤ batchSize ∧
    (GetExternalTransactionsPaginated db uploadID batchSize offset).Pairwise
      (fun a b => b.Date ≤ a.Date) ∧
    ∀ t ∈ GetExternalTransactionsPaginated db uploadID batchSize offset,
      ∃ row ∈ db.external_transactions, row.upload_id = uploadID ∧ row.tx = t := by
  refine ⟨?_, ?_, ?_⟩
  · simp only [GetExternalTransactionsPaginated, List.length_map]
    exact List.length_take_le _ _
  · rw [GetExternalTransactionsPaginated, List.pairwise_map]
    exact List.Pairwise.sublist
      ((List.take_sublist _ _).trans (List.drop_sublist _ _))
      (pairwise_sortByDateDesc _)
  · intro t ht
    rw [GetExternalTransactionsPaginated] at ht
    obtain ⟨row, hrow, rfl⟩ := List.mem_map.mp ht
    have h1 : row ∈ sortByDateDesc (db.external_transactions.filter
        (fun et => decide (et.upload_id = uploadID))) :=
      List.mem_of_mem_drop (List.mem_of_mem_take hrow)
    have h2 := (mem_sortByDateDesc _ _).mp h1
    obtain ⟨hmem, hpred⟩ := List.mem_filter.mp h2
    exact ⟨row, hmem, of_decide_eq_true hpred, rfl⟩

/-! Claim C5. -/

/-- C5: a progress document round-trips semantically through
`save_progress` / `load_progress`, unknown fields included, for any document
whose unknown fields do not reuse one of the five schema field names (a JSON
object has distinct keys). -/
theorem loadReconciliationProgress_after_save (db : DB) (rid : String)
    (p : ReconciliationProgress)
    (h : ∀ kv ∈ p.Extra, ¬ kv.1 ∈ progressKnownKeys) :
    LoadReconciliationProgress (SaveReconciliationProgress db rid p) rid =
      Except.ok p := by
  have hlook : lookupProgressRow rid
      (SaveReconciliationProgress db rid p).reconciliation_progress =
      some (marshalProgress p) := by
    simp only [SaveReconciliationProgress]
    exact lookup_upsertProgressRow _ _ _
  rw [LoadReconciliationProgress, hlook]
  exact congrArg Except.ok (unmarshalProgress_marshalProgress p h)

def progC5 : ReconciliationProgress :=
  ⟨"etx-42", 10, 4, 6, 2, [("custom_field", Jval.jstr "kept")]⟩

/-- C5 witness: the round-trip theorem applied to a document carrying an
unknown field beyond the minimum schema. -/
theorem loadReconciliationProgress_after_save_witness :
    LoadReconciliationProgress (SaveReconciliationProgress DB.empty "r1" progC5)
      "r1" = Except.ok progC5 :=
  loadReconciliationProgress_after_save DB.empty "r1" progC5 (by decide)

/-! Claim C6. -/

def matchC6 : Match := ⟨"e1", "i1", "r1", 100, 1⟩

def dbC6' : DB := ⟨[], [matchC6], [], [], []⟩

/-- C6 counterexample: the second identical `record_matches` call does NOT
succeed as a no-op — the bulk COPY has no conflict handling, so the replayed
row violates the `(reconciliation_id, external_transaction_id)` uniqueness
constraint and the whole call fails (wrapped as Internal; the transaction is
rolled back). -/
theorem recordMatches_second_call_errors :
    RecordMatches DB.empty "r1" [matchC6] = Except.ok dbC6' ∧
    RecordMatches dbC6' "r1" [matchC6] =
      Except.error ⟨ErrorKind.InternalServer, "Failed to flush batch insert"⟩ :=
  ⟨rfl, rfl⟩

/-- C6 (amended): replaying `record_matches(reconciliation_id, matches)` with
the same nonempty payload leaves the matches table in the same state as one
call — but not by succeeding as a no-op: the second call fails with the
`Internal` error kind (the COPY hits the uniqueness constraint on its first
row and the surrounding transaction rolls back, changing nothing). -/
theorem recordMatches_replay_fails (db db' : DB) (rid : String) (m : Match)
    (ms : List Match)
    (h : RecordMatches db rid (m :: ms) = Except.ok db') :
    RecordMatches db' rid (m :: ms) =
      Except.error ⟨ErrorKind.InternalServer, "Failed to flush batch insert"⟩ := by
  rw [RecordMatches] at h
  rcases hc : copyMatches db.«matches»
      ((m :: ms).map (fun x => { x with ReconciliationID := rid })) with _ | t
  · rw [hc] at h
    exact absurd h (by simp)
  · rw [hc] at h
    have hdb : { db with «matches» := t } = db' := by injection h
    have ht : t = db.«matches» ++
        (m :: ms).map (fun x => { x with ReconciliationID := rid }) :=
      copyMatches_eq_append _ _ _ hc
    subst hdb
    rw [RecordMatches]
    have hdup : copyMatches t
        ((m :: ms).map (fun x => { x with ReconciliationID := rid })) = none := by
      rw [List.map_cons]
      refine copyMatches_head_dup _ _ _
        ⟨{ m with ReconciliationID := rid }, ?_, rfl, rfl⟩
      rw [ht, List.map_cons]
      exact List.mem_append_right _ (List.mem_cons_self _ _)
    rw [List.map_cons] at hdup ⊢
    rw [hdup]

/-- C6 witness: the amended theorem applied to the one-match replay. -/
theorem recordMatches_replay_fails_witness :
    RecordMatches dbC6' "r1" [matchC6] =
      Except.error ⟨ErrorKind.InternalServer, "Failed to flush batch insert"⟩ :=
  recordMatches_replay_fails DB.empty dbC6' "r1" matchC6 [] rfl

/-! Claim C7. -/

def ruleC7 : MatchingRule := ⟨0, "rule-1", 1, 2, "empty rule", "no criteria", []⟩

/-- C7 counterexample: a rule with an empty criteria list is NOT rejected with
`InvalidInput` — `record_matching_rule` validates nothing, marshals the empty
list and persists the rule. -/
theorem recordMatchingRule_accepts_empty_criteria :
    ruleC7.Criteria = [] ∧
    RecordMatchingRule DB.empty ruleC7 = Except.ok ⟨[], [], [], [ruleC7], []⟩ :=
  ⟨rfl, rfl⟩

/-- C7 (amended): `record_matching_rule` performs no validation of the
criteria: any rule whose `rule_id` is not already taken is persisted as-is —
in particular a rule with an empty criteria list, or with unknown field or
operator names, is inserted successfully and no `InvalidInput` error exists in
the function. -/
theorem recordMatchingRule_no_validation (db : DB) (rule : MatchingRule)
    (h : db.matching_rules.any (fun r => decide (r.RuleID = rule.RuleID)) = false) :
    RecordMatchingRule db rule = Except.ok { db with matching_rules :=
      db.matching_rules ++ [{ rule with ID := db.matching_rules.length }] } := by
  rw [RecordMatchingRule, if_neg]
  simp [h]

def ruleC7w : MatchingRule :=
  ⟨0, "rule-2", 1, 2, "weird rule", "unknown operator",
   [⟨"flavour", "tastes_like", "chicken"⟩]⟩

/-- C7 witness: the amended theorem applied to a rule whose only criterion
uses an unknown field and operator. -/
theorem recordMatchingRule_no_validation_witness :
    RecordMatchingRule DB.empty ruleC7w = Except.ok { DB.empty with
      matching_rules := DB.empty.matching_rules ++
        [{ ruleC7w with ID := DB.empty.matching_rules.length }] } :=
  recordMatchingRule_no_validation DB.empty ruleC7w (by decide)

/-! Claim C8. -/

/-- C8: when no progress row exists for the reconciliation id, `load_progress`
succeeds with the empty sentinel document — it does not return `NotFound` or
any other error. -/
theorem loadReconciliationProgress_missing_row (db : DB) (rid : String)
    (h : lookupProgressRow rid db.reconciliation_progress = none) :
    LoadReconciliationProgress db rid = Except.ok emptyProgress := by
  rw [LoadReconciliationProgress, h]

/-- C8 witness: loading progress from the empty store. -/
theorem loadReconciliationProgress_missing_row_witness :
    LoadReconciliationProgress DB.empty "r1" = Except.ok emptyProgress :=
  loadReconciliationProgress_missing_row DB.empty "r1" rfl

/-! Claim C9. -/

/-- C9: a successful `update_matching_rule(rule)` touches only the `name`,
`description` and `criteria` columns of the rows whose `rule_id` matches; the
stored `id`, `rule_id`, `created_at` and `updated_at` are unchanged (in
particular `updated_at` is NOT refreshed), rows with a different `rule_id`
are untouched, and every other table is untouched. -/
theorem updateMatchingRule_frame (db : DB) (rule : MatchingRule) (db' : DB)
    (h : UpdateMatchingRule db rule = Except.ok db') :
    db'.reconciliations = db.reconciliations ∧
    db'.«matches» = db.«matches» ∧
    db'.external_transactions = db.external_transactions ∧
    db'.reconciliation_progress = db.reconciliation_progress ∧
    List.Forall₂ (fun r r' : MatchingRule =>
      r'.ID = r.ID ∧ r'.RuleID = r.RuleID ∧ r'.CreatedAt = r.CreatedAt ∧
      r'.UpdatedAt = r.UpdatedAt ∧
      (r.RuleID = rule.RuleID → r'.Name = rule.Name ∧
        r'.Description = rule.Description ∧ r'.Criteria = rule.Criteria) ∧
      (¬ r.RuleID = rule.RuleID → r' = r))
      db.matching_rules db'.matching_rules := by
  simp only [UpdateMatchingRule] at h
  split at h
  · exact absurd h (by simp)
  · have hdb : { db with matching_rules := db.matching_rules.map (fun r =>
        if r.RuleID = rule.RuleID then
          { r with Name := rule.Name, Description := rule.Description,
                   Criteria := rule.Criteria }
        else r) } = db' := by
      injection h
    subst hdb
    refine ⟨rfl, rfl, rfl, rfl, ?_⟩
    refine forall2_self_map _ _ ?_ _
    intro r
    by_cases hr : r.RuleID = rule.RuleID
    · simp [hr]
    · simp [hr]

def ruleC9old : MatchingRule :=
  ⟨0, "ru-1", 11, 12, "old name", "old desc", [⟨"amount", "equals", "0"⟩]⟩

def ruleC9new : MatchingRule := ⟨7, "ru-1", 99, 98, "new name", "new desc", []⟩

def dbC9 : DB := ⟨[], [], [], [ruleC9old], []⟩

def dbC9' : DB := ⟨[], [], [], [⟨0, "ru-1", 11, 12, "new name", "new desc", []⟩], []⟩

/-- C9 witness: the frame theorem applied to an update that carries different
`created_at`/`updated_at` values, which are not written. -/
theorem updateMatchingRule_frame_witness :
    dbC9'.reconciliations = dbC9.reconciliations ∧
    dbC9'.«matches» = dbC9.«matches» ∧
    dbC9'.external_transactions = dbC9.external_transactions ∧
    dbC9'.reconciliation_progress = dbC9.reconciliation_progress ∧
    List.Forall₂ (fun r r' : MatchingRule =>
      r'.ID = r.ID ∧ r'.RuleID = r.RuleID ∧ r'.CreatedAt = r.CreatedAt ∧
      r'.UpdatedAt = r.UpdatedAt ∧
      (r.RuleID = ruleC9new.RuleID → r'.Name = ruleC9new.Name ∧
        r'.Description = ruleC9new.Description ∧ r'.Criteria = ruleC9new.Criteria) ∧
      (¬ r.RuleID = ruleC9new.RuleID → r' = r))
      dbC9.matching_rules dbC9'.matching_rules :=
  updateMatchingRule_frame dbC9 ruleC9new dbC9' rfl

/-! Claim C10. -/

/-- C10: `record_matches` with an empty matches list succeeds and leaves the
database — in particular the matches table — unchanged: the COPY loop runs
zero times, the empty flush succeeds and the transaction commits. -/
theorem recordMatches_empty_noop (db : DB) (rid : String) :
    RecordMatches db rid [] = Except.ok db :=
  rfl

end BlnkDB
